import Mathlib

/-!
Verification of the SIMuRG remote batch-job client: deduplicated job
submission (`simurg_client.py`), status polling and resumable artifact
retrieval (`simurg_downloader.py`, `base_downloader.py`).

Python strings are embedded as `List Char` (code points), Python byte
strings as `List Nat`, and the JSON values exchanged with the server as
the two-level type `JVal` (atoms, and mappings from strings to atoms),
which covers every value the client reads or writes.  Dictionaries are
association lists with first-match lookup; `dict.get` returns the atom
`null` for an absent key, mirroring the Python `None` default.
-/

/-- Membership of a character in a list of characters, as a Bool
(mirrors the Python `in` test on strings). -/
def strContains (s : List Char) (c : Char) : Bool :=
  s.any (fun a => a = c)

/-- Python `str.strip` restricted to its leading half: drop leading
whitespace characters. -/
def dropLeadingWs (s : List Char) : List Char :=
  s.dropWhile Char.isWhitespace

/-- Python `str.strip()`: drop leading and trailing whitespace.  (The
source only ever strips ASCII timestamp strings, so the `Char.isWhitespace`
class of Lean is an exact match on the reachable inputs.) -/
def pyStrip (s : List Char) : List Char :=
  ((dropLeadingWs s).reverse.dropWhile Char.isWhitespace).reverse

/-- Python `str.replace(old, new)` for a one-character pattern, as used by
`_norm_dt` with `replace("T", " ")`. -/
def pyReplaceChar (old new : Char) (s : List Char) : List Char :=
  s.map (fun c => if c = old then new else c)

/-- Python `str.lower()` (ASCII case folding, which is what the job-type
labels of the API use). -/
def pyLower (s : List Char) : List Char :=
  s.map Char.toLower

/-- Python `str.isdigit()` on ASCII text: non-empty and all digits. -/
def pyIsDigit (s : List Char) : Bool :=
  !s.isEmpty && s.all Char.isDigit

/-- Python `int(s)` on a string of decimal digits. -/
def parseDec (s : List Char) : Nat :=
  s.foldl (fun acc c => acc * 10 + (c.toNat - 48)) 0

/-- Python `s.split("/")[-1]`: the suffix after the last slash. -/
def afterLastSlash (s : List Char) : List Char :=
  (s.reverse.takeWhile (fun c => ¬ c = '/')).reverse

/-- Lexicographic strict order on Python strings (comparison of code
points, shorter prefix first), used by `sorted` on the `created` keys. -/
def strLtB : List Char → List Char → Bool
  | [], [] => false
  | [], _ :: _ => true
  | _ :: _, [] => false
  | a :: as, b :: bs =>
    if a.toNat < b.toNat then true
    else if b.toNat < a.toNat then false
    else strLtB as bs

/-- Atomic JSON values: strings, integers, booleans, null. -/
inductive JAtom where
  | str : List Char → JAtom
  | int : Int → JAtom
  | bool : Bool → JAtom
  | null : JAtom
deriving DecidableEq

/-- A JSON value as handled by the client: an atom, or a flat mapping
from strings to atoms (the shape of `coordinates`, `options` and `paths`
in the API payloads). -/
inductive JVal where
  | atom : JAtom → JVal
  | dict : List (List Char × JAtom) → JVal
deriving DecidableEq

/-- A JSON object with arbitrary (possibly mapping-valued) fields: the
shape of one job record and of the request payload `args`. -/
def Dict : Type := List (List Char × JVal)

instance : DecidableEq Dict := by
  unfold Dict
  infer_instance

/-- First-match association lookup (Python dictionaries have unique keys,
so first match is the unique match on faithful inputs). -/
def dictFind? (d : Dict) (k : List Char) : Option JVal :=
  match d with
  | [] => none
  | (k2, v) :: rest => if k2 = k then some v else dictFind? rest k

/-- Python `d.get(k)`: the stored value, or `None` for an absent key. -/
def dictGet (d : Dict) (k : List Char) : JVal :=
  (dictFind? d k).getD (JVal.atom .null)

/-- Lookup in an atom-valued mapping. -/
def aFind? (d : List (List Char × JAtom)) (k : List Char) : Option JAtom :=
  match d with
  | [] => none
  | (k2, v) :: rest => if k2 = k then some v else aFind? rest k

/-- Python `d.get(k)` on an atom-valued mapping. -/
def aGet (d : List (List Char × JAtom)) (k : List Char) : JAtom :=
  (aFind? d k).getD JAtom.null

/-- Python truthiness of an atom. -/
def atomTruthy : JAtom → Bool
  | .str s => !s.isEmpty
  | .int n => !(n = 0)
  | .bool b => b
  | .null => false

/-- Python truthiness of a value. -/
def pyTruthy : JVal → Bool
  | .atom a => atomTruthy a
  | .dict d => !d.isEmpty

/-- Python `x or y`. -/
def pyOr (x y : JVal) : JVal :=
  if pyTruthy x then x else y

/-- Python `str()` of an atom (`repr` form for the non-string atoms). -/
def atomStr : JAtom → List Char
  | .str s => s
  | .int n => (toString n).data
  | .bool true => "True".data
  | .bool false => "False".data
  | .null => "None".data

/-- Python `repr()` of an atom: strings gain quotes (single quotes, or
double quotes when the text holds a single quote and no double quote,
following CPython; escaping of quotes and backslashes inside the text is
elided, as no reachable value contains them). -/
def atomRepr : JAtom → List Char
  | .str s =>
    if strContains s (Char.ofNat 39) && !strContains s (Char.ofNat 34) then
      Char.ofNat 34 :: s ++ [Char.ofNat 34]
    else
      Char.ofNat 39 :: s ++ [Char.ofNat 39]
  | a => atomStr a

/-- Python `str()` of a flat mapping, entry by entry. -/
def dictReprEntries : List (List Char × JAtom) → List Char
  | [] => []
  | [(k, v)] => atomRepr (.str k) ++ ": ".data ++ atomRepr v
  | (k, v) :: rest =>
    atomRepr (.str k) ++ ": ".data ++ atomRepr v ++ ", ".data ++ dictReprEntries rest

/-- Python `str(x)` on a client-visible value.  Strings pass through
unchanged; other atoms print as in CPython; mappings print brace-wrapped
(only reachable for malformed job records, and unused by the theorems). -/
def pyStr : JVal → List Char
  | .atom a => atomStr a
  | .dict d => Char.ofNat 123 :: dictReprEntries d ++ [Char.ofNat 125]

/-- Convert a value to the `Optional[str]` argument shape of `_norm_dt`:
`None` stays `None`, a string passes through, any other value goes through
`str()` (the `str(s)` call inside `_norm_dt`). -/
def jvalToOptStr : JVal → Option (List Char)
  | .atom .null => none
  | .atom (.str s) => some s
  | v => some (pyStr v)

/-- The normalization body of `SimurgClient._norm_dt` on a string:
`s.strip().replace("T", " ")`, then `s[:16] if len(s) >= 16 else s`. -/
def normCode (s : List Char) : List Char :=
  let t := pyReplaceChar 'T' ' ' (pyStrip s)
  if 16 ≤ t.length then t.take 16 else t

/-- `SimurgClient._norm_dt`: normalize an optional datetime string to
minute precision for matching; `None` maps to `None`. -/
def norm_dt : Option (List Char) → Option (List Char)
  | none => none
  | some s => some (normCode s)

/-- The `coordinates` / `options` comparison block of
`SimurgClient._payload_match`: skip when the client sends nothing
(`pcoords is None`); otherwise both sides must be mappings and every key
the client sends must be echoed with an equal value (keys present only on
the server side are ignored). -/
def subsetCheck (pv sv : JVal) : Bool :=
  match pv with
  | .atom .null => true
  | .dict pc =>
    match sv with
    | .dict sc => pc.all (fun kv => decide (aGet sc kv.1 = kv.2))
    | _ => false
  | _ => false

/-- `SimurgClient._payload_match`: does a server job record match the
payload the client would send (method + args subset)? -/
def payload_match (server_query : Dict) (payload_method : List Char)
    (payload_args : Dict) : Bool :=
  let server_type := pyLower (pyStr (pyOr (dictGet server_query ("type".data))
      (JVal.atom (.str []))))
  let payload_type := pyLower payload_method
  if ¬ (server_type = "map".data ∧ payload_type = "create_map".data)
      ∧ ¬ server_type = payload_type then
    false
  else if ¬ norm_dt (jvalToOptStr (dictGet server_query ("begin".data)))
      = norm_dt (jvalToOptStr (dictGet payload_args ("begin".data))) then
    false
  else if ¬ norm_dt (jvalToOptStr (dictGet server_query ("end".data)))
      = norm_dt (jvalToOptStr (dictGet payload_args ("end".data))) then
    false
  else if ¬ subsetCheck (dictGet payload_args ("coordinates".data))
      (dictGet server_query ("coordinates".data)) = true then
    false
  else if ¬ subsetCheck (dictGet payload_args ("options".data))
      (dictGet server_query ("options".data)) = true then
    false
  else
    true

/-- `SimurgClient.check_status`: scan the job listing for the queried id;
absent ids yield the record `{"status": "not_found"}`. -/
def check_status (queries : List Dict) (query_id : List Char) : Dict :=
  match queries.find? (fun q => decide (dictGet q ("id".data) = JVal.atom (.str query_id))) with
  | some q => q
  | none => [(("status".data), JVal.atom (.str ("not_found".data)))]

/-- `SimurgClient.get_query_id`: take the last entry of the listing
(`req[-1]`, an IndexError on an empty listing, modelled as `none`) and
return `str(entry.get("id"))`. -/
def get_query_id (listing : List Dict) : Option (List Char) :=
  match listing.getLast? with
  | none => none
  | some d => some (pyStr (dictGet d ("id".data)))

/-- Outcome of `SimurgClient.create_query` after the creation POST. -/
inductive CreateResult where
  | httpError (status : Nat)
  | listingEmpty
  | idUnobtainable
  | ok (id : List Char)
deriving DecidableEq

/-- `SimurgClient.create_query`, parametrized by the HTTP status of the
creation POST and by the job listing the follow-up `check` call returns:
a non-200 status is fatal; otherwise the id is resolved by
`get_query_id` and rejected only when falsy (the empty string). -/
def create_query (postStatus : Nat) (listing : List Dict) : CreateResult :=
  if ¬ postStatus = 200 then .httpError postStatus
  else
    match get_query_id listing with
    | none => .listingEmpty
    | some qid => if qid = [] then .idUnobtainable else .ok qid

/-- Python `dict.update`: entries of the first mapping keep their place
but take the value of the second mapping when the key recurs there; fresh
keys of the second mapping are appended in order. -/
def pyDictUpdate (d1 d2 : Dict) : Dict :=
  d1.map (fun kv => match dictFind? d2 kv.1 with
    | some v => (kv.1, v)
    | none => kv)
  ++ d2.filter (fun kv => (dictFind? d1 kv.1).isNone)

/-- The payload `args` built by `create_or_reuse_query_id`:
`{"email": ..., "begin": ..., "end": ...}` updated with the extra
product parameters. -/
def buildPayloadArgs (email start_time end_time : List Char) (args_params : Dict) : Dict :=
  pyDictUpdate
    [ (("email".data), JVal.atom (.str email))
    , (("begin".data), JVal.atom (.str start_time))
    , (("end".data), JVal.atom (.str end_time)) ]
    args_params

/-- The sort key of the tie-break in `create_or_reuse_query_id`:
`str(q.get("created") or "")`. -/
def createdKey (q : Dict) : List Char :=
  pyStr (pyOr (dictGet q ("created".data)) (JVal.atom (.str [])))

/-- One insertion step of a stable descending sort by key (an element
moves before the first strictly smaller key, so equal keys keep their
original order, as Python `sorted(..., reverse=True)` guarantees). -/
def insertDescBy (key : Dict → List Char) (x : Dict) : List Dict → List Dict
  | [] => [x]
  | y :: ys =>
    if strLtB (key y) (key x) then x :: y :: ys
    else y :: insertDescBy key x ys

/-- Stable descending sort by key: extensionally the unique stable
descending order, hence the image of `sorted(..., key=..., reverse=True)`. -/
def sortDescBy (key : Dict → List Char) : List Dict → List Dict
  | [] => []
  | x :: xs => insertDescBy key x (sortDescBy key xs)

/-- The `chosen` computation of `create_or_reuse_query_id` on the list
of matched jobs: `done[0] if done else sorted(matched, key=...,
reverse=True)[0]` — the first match with status `done` when one exists,
else the head of the stable `created`-descending order. -/
def chooseMatched (matched : List Dict) : Dict :=
  let done := matched.filter
    (fun q => decide (dictGet q ("status".data) = JVal.atom (.str ("done".data))))
  match done with
  | q :: _ => q
  | [] => (sortDescBy createdKey matched).headD []

/-- Outcome of `create_or_reuse_query_id`: either an existing job id is
reused (no creation POST is issued), or a creation POST with the built
payload is required. -/
inductive ReuseOutcome where
  | reused (id : List Char)
  | createNew (payload_args : Dict)
deriving DecidableEq

/-- `SimurgClient.create_or_reuse_query_id`, parametrized by the job
listing returned by `checking_by_mail`: filter the listing through
`_payload_match`; when matches exist pick `done[0]` if any match is done,
else the head of the `created`-descending sort, and reuse its id; when no
match exists fall through to job creation. -/
def create_or_reuse_query_id (queries : List Dict)
    (start_time end_time method : List Char) (args_params : Dict)
    (email : List Char) : ReuseOutcome :=
  let payload_args := buildPayloadArgs email start_time end_time args_params
  let matched := queries.filter (fun q => payload_match q method payload_args)
  if matched = [] then
    .createNew payload_args
  else
    .reused (pyStr (dictGet (chooseMatched matched) ("id".data)))

/-- One step of the polling loop `_SimurgDownloader._wait_and_download`,
classified by its effect. -/
inductive PollStep where
  | finished (resultPath : JAtom)
  | sleepRetry
  | fatalDone
  | fatalStatus
  | typeError
deriving DecidableEq

/-- One iteration of `_wait_and_download` on one status record: `done`
with a truthy `paths.data` returns the result location; `done` otherwise
raises; the four in-progress statuses sleep one polling interval and
re-query; any other status raises at once.  A truthy non-mapping `paths`
would make `.get` raise an AttributeError (`typeError`, unreachable on
well-formed records). -/
def pollIter (status_data : Dict) : PollStep :=
  let status := dictGet status_data ("status".data)
  if status = JVal.atom (.str ("done".data)) then
    match dictGet status_data ("paths".data) with
    | .dict d =>
      let result_path := aGet d ("data".data)
      if atomTruthy result_path then .finished result_path else .fatalDone
    | .atom a =>
      if atomTruthy a then .typeError else .fatalDone
  else if status ∈ [ JVal.atom (.str ("new".data)), JVal.atom (.str ("prepared".data))
                   , JVal.atom (.str ("processed".data)), JVal.atom (.str ("plot".data)) ] then
    .sleepRetry
  else
    .fatalStatus

/-- Outcome of a finite run of the polling loop, carrying the number of
interval sleeps performed before the run settled. -/
inductive PollOutcome where
  | success (sleeps : Nat) (resultPath : JAtom)
  | fatalNoPath (sleeps : Nat)
  | fatalUnexpected (sleeps : Nat) (status_data : Dict)
  | crash (sleeps : Nat)
  | pending (sleeps : Nat)
deriving DecidableEq

/-- The polling loop of `_wait_and_download` over a script of status
records (one record per `check_status` call). -/
def runPoll : List Dict → PollOutcome
  | [] => .pending 0
  | sd :: rest =>
    match pollIter sd with
    | .finished p => .success 0 p
    | .fatalDone => .fatalNoPath 0
    | .fatalStatus => .fatalUnexpected 0 sd
    | .typeError => .crash 0
    | .sleepRetry =>
      match runPoll rest with
      | .success n p => .success (n + 1) p
      | .fatalNoPath n => .fatalNoPath (n + 1)
      | .fatalUnexpected n sd2 => .fatalUnexpected (n + 1) sd2
      | .crash n => .crash (n + 1)
      | .pending n => .pending (n + 1)

/-- The two response headers `_download_result` reads, plus the HTTP
status code. -/
structure HttpResp where
  status : Nat
  contentRange : Option (List Char)
  contentLength : Option (List Char)
deriving DecidableEq

/-- One network interaction of the download loop: the GET itself raises a
`RequestException`, or a response arrives and its body streams fully, or
a response arrives and streaming raises after some chunks were written. -/
inductive NetEvent where
  | reqError
  | ok (resp : HttpResp) (chunks : List (List Nat))
  | streamError (resp : HttpResp) (chunks : List (List Nat))
deriving DecidableEq

/-- The file-open mode chosen by `_download_result`. -/
inductive FileMode where
  | wb
  | ab
deriving DecidableEq

/-- The mode / offset adjustment of `_download_result`: a 200 answer to a
ranged request means the server ignored the range, so local bytes are
discarded (truncate mode, offset zeroed); otherwise append when a partial
file exists, create when not. -/
def selectMode (status offset : Nat) : FileMode × Nat :=
  if status = 200 ∧ ¬ offset = 0 then (.wb, 0)
  else ((if ¬ offset = 0 then .ab else .wb), offset)

/-- `_extract_total_size`: the total expected byte count, from the part
of a `Content-Range` header after its last slash when that parses as
digits, else from a digit `Content-Length` (added to the offset for a 206
answer, absolute otherwise), else unknown. -/
def extractTotalSize (resp : HttpResp) (offset : Nat) : Option Nat :=
  let fromRange : Option Nat :=
    match resp.contentRange with
    | some cr =>
      if !cr.isEmpty && strContains cr '/' && pyIsDigit (afterLastSlash cr) then
        some (parseDec (afterLastSlash cr))
      else none
    | none => none
  match fromRange with
  | some t => some t
  | none =>
    match resp.contentLength with
    | some cl =>
      if !cl.isEmpty && pyIsDigit cl then
        if resp.status = 206 then some (offset + parseDec cl) else some (parseDec cl)
      else none
    | none => none

/-- The bytes actually written from a stream of chunks: `iter_content`
chunks are written in order, empty chunks are skipped (`if chunk:`). -/
def writtenBody (chunks : List (List Nat)) : List Nat :=
  (chunks.filter (fun c => !c.isEmpty)).flatten

/-- Write the body under the chosen mode: truncate (`"wb"`) or append
(`"ab"`). -/
def applyMode : FileMode → List Nat → List Nat → List Nat
  | .wb, _, w => w
  | .ab, f, w => f ++ w

/-- The value of the `Range` header: `bytes={offset}-`. -/
def rangeHeaderValue (offset : Nat) : List Char :=
  ("bytes=".data) ++ (toString offset).data ++ ("-".data)

/-- The headers sent by one GET of the download loop: a `Range` header
exactly when a partial file exists (`offset` truthy). -/
def requestHeader (offset : Nat) : Option (List Char) :=
  if ¬ offset = 0 then some (rangeHeaderValue offset) else none

/-- Effect of one iteration of the download loop on the local file. -/
inductive IterOut where
  | fatalStatus (status : Nat) (file : List Nat)
  | retrySleep (file : List Nat)
  | nextNoSleep (file : List Nat)
  | done (file : List Nat)
deriving DecidableEq

/-- The file carried by an iteration outcome. -/
def IterOut.fileOf : IterOut → List Nat
  | .fatalStatus _ f => f
  | .retrySleep f => f
  | .nextNoSleep f => f
  | .done f => f

/-- One iteration of the `while True` loop of `_download_result`, paired
with the `Range` header it sent: recompute the offset from the file on
disk, issue the GET (a transport error sleeps and retries), reject any
status besides 200 and 206 fatally, pick mode and adjusted offset, read
the expected total, write the streamed chunks (a mid-stream transport
error sleeps and retries with whatever was written), and finish when the
total is unknown or the on-disk size has reached it. -/
def downloadIter (file : List Nat) (ev : NetEvent) : Option (List Char) × IterOut :=
  let offset := file.length
  let hdr := requestHeader offset
  match ev with
  | .reqError => (hdr, .retrySleep file)
  | .ok resp chunks =>
    if ¬ resp.status = 200 ∧ ¬ resp.status = 206 then
      (hdr, .fatalStatus resp.status file)
    else
      let mo := selectMode resp.status offset
      let total := extractTotalSize resp mo.2
      let file2 := applyMode mo.1 file (writtenBody chunks)
      match total with
      | none => (hdr, .done file2)
      | some t => if t ≤ file2.length then (hdr, .done file2) else (hdr, .nextNoSleep file2)
  | .streamError resp chunks =>
    if ¬ resp.status = 200 ∧ ¬ resp.status = 206 then
      (hdr, .fatalStatus resp.status file)
    else
      let mo := selectMode resp.status offset
      let file2 := applyMode mo.1 file (writtenBody chunks)
      (hdr, .retrySleep file2)

/-- Outcome of a finite run of the download loop. -/
inductive DlResult where
  | success (file : List Nat)
  | fatal (status : Nat) (file : List Nat)
  | pending (file : List Nat)
deriving DecidableEq

/-- Observable log of a download run: the headers of the GETs issued, and
the number of interval sleeps performed. -/
structure DlLog where
  requests : List (Option (List Char))
  sleeps : Nat
deriving DecidableEq

/-- The `while True` loop of `_download_result` over a script of network
events, starting from the file as it stands on disk. -/
def runDownload : List NetEvent → List Nat → DlLog × DlResult
  | [], file => (⟨[], 0⟩, .pending file)
  | ev :: evs, file =>
    let step := downloadIter file ev
    match step.2 with
    | .fatalStatus s f => (⟨[step.1], 0⟩, .fatal s f)
    | .done f => (⟨[step.1], 0⟩, .success f)
    | .retrySleep f =>
      let rest := runDownload evs f
      (⟨step.1 :: rest.1.requests, rest.1.sleeps + 1⟩, rest.2)
    | .nextNoSleep f =>
      let rest := runDownload evs f
      (⟨step.1 :: rest.1.requests, rest.1.sleeps⟩, rest.2)

/-! ### Helper lemmas -/

theorem normCode_no_T (s : List Char) : 'T' ∉ normCode s := by
  intro hmem
  have hmem2 : 'T' ∈ pyReplaceChar 'T' ' ' (pyStrip s) := by
    unfold normCode at hmem
    by_cases h16 : 16 ≤ (pyReplaceChar 'T' ' ' (pyStrip s)).length
    · simp only [h16, if_pos] at hmem
      exact List.mem_of_mem_take hmem
    · simp only [h16, if_neg, not_false_iff] at hmem
      exact hmem
  rcases List.mem_map.mp hmem2 with ⟨c, _, hc⟩
  by_cases hcT : c = 'T'
  · simp [hcT] at hc
  · simp [hcT] at hc

theorem normCode_length_le (s : List Char) : (normCode s).length ≤ 16 := by
  unfold normCode
  by_cases h16 : 16 ≤ (pyReplaceChar 'T' ' ' (pyStrip s)).length
  · simp [h16]
  · simp only [h16, if_neg, not_false_iff]
    omega

theorem normCode_fixed (t : List Char) (hstrip : pyStrip t = t) (hT : 'T' ∉ t)
    (hlen : t.length ≤ 16) : normCode t = t := by
  have hrep : pyReplaceChar 'T' ' ' t = t := by
    unfold pyReplaceChar
    have : t.map (fun c => if c = 'T' then ' ' else c) = t.map id := by
      apply List.map_congr_left
      intro a ha
      have : ¬ a = 'T' := fun h => hT (h ▸ ha)
      simp [this]
    simpa using this
  unfold normCode
  rw [hstrip, hrep]
  by_cases h16 : 16 ≤ t.length
  · rw [if_pos h16]
    exact List.take_of_length_le hlen
  · rw [if_neg h16]

theorem runPoll_cons_sleep (sd : Dict) (rest : List Dict)
    (h : pollIter sd = .sleepRetry) :
    runPoll (sd :: rest) =
      match runPoll rest with
      | .success n p => .success (n + 1) p
      | .fatalNoPath n => .fatalNoPath (n + 1)
      | .fatalUnexpected n sd2 => .fatalUnexpected (n + 1) sd2
      | .crash n => .crash (n + 1)
      | .pending n => .pending (n + 1) := by
  simp only [runPoll]
  rw [h]

theorem runPoll_progress_prefix (pre : List Dict) (sd : Dict) (rest : List Dict)
    (hpre : ∀ x ∈ pre, pollIter x = .sleepRetry)
    (hsd : pollIter sd = .fatalStatus) :
    runPoll (pre ++ sd :: rest) = .fatalUnexpected pre.length sd := by
  induction pre with
  | nil =>
    simp only [List.nil_append, List.length_nil]
    unfold runPoll
    rw [hsd]
  | cons x xs ih =>
    have hx : pollIter x = .sleepRetry := hpre x (List.mem_cons_self x xs)
    have hxs : ∀ y ∈ xs, pollIter y = .sleepRetry :=
      fun y hy => hpre y (List.mem_cons_of_mem x hy)
    rw [List.cons_append, runPoll_cons_sleep x (xs ++ sd :: rest) hx, ih hxs]
    simp

/-! ### Claim theorems -/

/-- Claim C10, counterexample: `_norm_dt` is not idempotent.  On the
input string `"T"` one application yields the one-space string (the `T`
is replaced before any truncation), and a second application strips that
space away, yielding the empty string. -/
theorem norm_dt_not_idempotent :
    norm_dt (norm_dt (some ['T'])) ≠ norm_dt (some ['T']) := by
  decide

/-- Claim C10 (amended): `_norm_dt` is total, maps `None` to `None`, its
result never exceeds 16 characters and holds no `T` separator, and it is
idempotent on every input whose normalized form is unchanged by
whitespace stripping (re-normalizing can shorten the string further when
truncation at 16 characters, or replacing a leading or trailing `T`,
leaves outer whitespace). -/
theorem norm_dt_props :
    norm_dt none = none ∧
    (∀ s : List Char, ∃ t : List Char, norm_dt (some s) = some t ∧
      t.length ≤ 16 ∧ 'T' ∉ t) ∧
    (∀ s t : List Char, norm_dt (some s) = some t → pyStrip t = t →
      norm_dt (some t) = some t) := by
  refine ⟨rfl, ?_, ?_⟩
  · intro s
    exact ⟨normCode s, rfl, normCode_length_le s, normCode_no_T s⟩
  · intro s t hst hstrip
    have ht : t = normCode s := by
      simpa [norm_dt] using hst.symm
    have hfix : normCode t = t :=
      normCode_fixed t hstrip (ht ▸ normCode_no_T s) (ht ▸ normCode_length_le s)
    simp [norm_dt, hfix]

/-- Claim C10, witness: the idempotence part of the amended claim applied
to a concrete timestamp whose normal form is stripped of whitespace. -/
theorem norm_dt_props_witness :
    norm_dt (some ("2024-01-01 00:00".data)) = some ("2024-01-01 00:00".data) :=
  norm_dt_props.2.2 ("2024-01-01T00:00:59".data) ("2024-01-01 00:00".data)
    (by decide) (by decide)

theorem pollIter_done_truthy (sd : Dict) (d : List (List Char × JAtom)) (rp : JAtom)
    (hst : dictGet sd ("status".data) = JVal.atom (.str ("done".data)))
    (hp : dictGet sd ("paths".data) = JVal.dict d)
    (hd : aGet d ("data".data) = rp)
    (htru : atomTruthy rp = true) :
    pollIter sd = .finished rp := by
  have hd2 : aGet d ['d', 'a', 't', 'a'] = rp := hd
  simp only [pollIter]
  rw [hst, if_pos rfl, hp]
  simp only [hd2, htru]
  simp

theorem pollIter_done_falsy (sd : Dict) (d : List (List Char × JAtom))
    (hst : dictGet sd ("status".data) = JVal.atom (.str ("done".data)))
    (hp : dictGet sd ("paths".data) = JVal.dict d)
    (htru : atomTruthy (aGet d ("data".data)) = false) :
    pollIter sd = .fatalDone := by
  have htru2 : atomTruthy (aGet d ['d', 'a', 't', 'a']) = false := htru
  simp only [pollIter]
  rw [hst, if_pos rfl, hp]
  simp only [htru2]
  simp

theorem pollIter_done_null_paths (sd : Dict)
    (hst : dictGet sd ("status".data) = JVal.atom (.str ("done".data)))
    (hp : dictGet sd ("paths".data) = JVal.atom .null) :
    pollIter sd = .fatalDone := by
  simp only [pollIter]
  rw [hst, if_pos rfl, hp]
  simp [atomTruthy]

theorem pollIter_progress (sd : Dict)
    (hmem : dictGet sd ("status".data) ∈
      [ JVal.atom (.str ("new".data)), JVal.atom (.str ("prepared".data))
      , JVal.atom (.str ("processed".data)), JVal.atom (.str ("plot".data)) ]) :
    pollIter sd = .sleepRetry := by
  simp only [List.mem_cons, List.mem_singleton, List.not_mem_nil, or_false] at hmem
  simp only [pollIter]
  rcases hmem with h | h | h | h <;>
    rw [h, if_neg (by decide), if_pos (by decide)]

theorem pollIter_unexpected (sd : Dict)
    (hne : ¬ dictGet sd ("status".data) = JVal.atom (.str ("done".data)))
    (hnm : dictGet sd ("status".data) ∉
      [ JVal.atom (.str ("new".data)), JVal.atom (.str ("prepared".data))
      , JVal.atom (.str ("processed".data)), JVal.atom (.str ("plot".data)) ]) :
    pollIter sd = .fatalStatus := by
  simp only [pollIter]
  rw [if_neg hne, if_neg hnm]

theorem runPoll_cons_of_finished (sd : Dict) (rest : List Dict) (rp : JAtom)
    (h : pollIter sd = .finished rp) :
    runPoll (sd :: rest) = .success 0 rp := by
  simp only [runPoll]
  rw [h]

theorem runPoll_cons_of_fatalStatus (sd : Dict) (rest : List Dict)
    (h : pollIter sd = .fatalStatus) :
    runPoll (sd :: rest) = .fatalUnexpected 0 sd := by
  simp only [runPoll]
  rw [h]

/-- Claim C3: classification of one run of the polling loop
`_wait_and_download`.  A `done` status with a truthy `paths.data`
terminates the loop at once with that result location; each of the four
in-progress statuses sleeps one polling interval and re-queries; any
other status aborts fatally in the same poll cycle, after exactly one
sleep per preceding in-progress cycle and none for the aborting cycle;
and a `done` status whose `paths.data` is missing, empty or null is a
fatal error, not a result. -/
theorem wait_and_download_poll_cases :
    (∀ (sd : Dict) (d : List (List Char × JAtom)) (rp : JAtom) (rest : List Dict),
      dictGet sd ("status".data) = JVal.atom (.str ("done".data)) →
      dictGet sd ("paths".data) = JVal.dict d →
      aGet d ("data".data) = rp →
      atomTruthy rp = true →
      pollIter sd = .finished rp ∧ runPoll (sd :: rest) = .success 0 rp) ∧
    (∀ sd : Dict,
      dictGet sd ("status".data) ∈
        [ JVal.atom (.str ("new".data)), JVal.atom (.str ("prepared".data))
        , JVal.atom (.str ("processed".data)), JVal.atom (.str ("plot".data)) ] →
      pollIter sd = .sleepRetry) ∧
    (∀ (sd : Dict) (rest : List Dict),
      ¬ dictGet sd ("status".data) = JVal.atom (.str ("done".data)) →
      dictGet sd ("status".data) ∉
        [ JVal.atom (.str ("new".data)), JVal.atom (.str ("prepared".data))
        , JVal.atom (.str ("processed".data)), JVal.atom (.str ("plot".data)) ] →
      pollIter sd = .fatalStatus ∧ runPoll (sd :: rest) = .fatalUnexpected 0 sd) ∧
    (∀ (pre : List Dict) (sd : Dict) (rest : List Dict),
      (∀ x ∈ pre, dictGet x ("status".data) ∈
        [ JVal.atom (.str ("new".data)), JVal.atom (.str ("prepared".data))
        , JVal.atom (.str ("processed".data)), JVal.atom (.str ("plot".data)) ]) →
      ¬ dictGet sd ("status".data) = JVal.atom (.str ("done".data)) →
      dictGet sd ("status".data) ∉
        [ JVal.atom (.str ("new".data)), JVal.atom (.str ("prepared".data))
        , JVal.atom (.str ("processed".data)), JVal.atom (.str ("plot".data)) ] →
      runPoll (pre ++ sd :: rest) = .fatalUnexpected pre.length sd) ∧
    (∀ (sd : Dict) (d : List (List Char × JAtom)),
      dictGet sd ("status".data) = JVal.atom (.str ("done".data)) →
      dictGet sd ("paths".data) = JVal.dict d →
      atomTruthy (aGet d ("data".data)) = false →
      pollIter sd = .fatalDone) ∧
    (∀ sd : Dict,
      dictGet sd ("status".data) = JVal.atom (.str ("done".data)) →
      dictGet sd ("paths".data) = JVal.atom .null →
      pollIter sd = .fatalDone) := by
  refine ⟨?_, pollIter_progress, ?_, ?_, pollIter_done_falsy, pollIter_done_null_paths⟩
  · intro sd d rp rest hst hp hd htru
    have h1 := pollIter_done_truthy sd d rp hst hp hd htru
    exact ⟨h1, runPoll_cons_of_finished sd rest rp h1⟩
  · intro sd rest hne hnm
    have h1 := pollIter_unexpected sd hne hnm
    exact ⟨h1, runPoll_cons_of_fatalStatus sd rest h1⟩
  · intro pre sd rest hpre hne hnm
    exact runPoll_progress_prefix pre sd rest
      (fun x hx => pollIter_progress x (hpre x hx))
      (pollIter_unexpected sd hne hnm)

/-- Claim C3, witness: a two-cycle run, one in-progress `new` poll (one
sleep) followed by an `error` status that aborts without a further
sleep. -/
theorem wait_and_download_poll_cases_witness :
    runPoll ( [(("status".data), JVal.atom (.str ("new".data)))]
            :: [(("status".data), JVal.atom (.str ("error".data)))] :: []) =
      .fatalUnexpected 1 [(("status".data), JVal.atom (.str ("error".data)))] := by
  have h := wait_and_download_poll_cases.2.2.2.1
    [[(("status".data), JVal.atom (.str ("new".data)))]]
    [(("status".data), JVal.atom (.str ("error".data)))] []
    (by decide) (by decide) (by decide)
  simpa using h

/-- Claim C8, code behaviour at the failing input: after a 200 creation
POST, when the last entry of the re-queried listing carries no id,
`create_query` does not fail with the id-unobtainable error; it returns
the string `"None"` as the job id (`str(None)` is truthy, so the falsy
guard never fires). -/
theorem create_query_missing_id_returns_None :
    create_query 200 [[(("status".data), JVal.atom (.str ("new".data)))]]
      = .ok ("None".data)
    ∧ ¬ create_query 200 [[(("status".data), JVal.atom (.str ("new".data)))]]
      = .idUnobtainable := by
  decide

/-- Claim C9: a job id absent from the listing for the client identity
makes `check_status` return the record with status `not_found`, and the
polling loop aborts fatally on its very first iteration, with zero
sleeps and no retry. -/
theorem check_status_not_found (queries : List Dict) (qid : List Char) (rest : List Dict)
    (h : ∀ q ∈ queries, ¬ dictGet q ("id".data) = JVal.atom (.str qid)) :
    check_status queries qid = [(("status".data), JVal.atom (.str ("not_found".data)))] ∧
    runPoll (check_status queries qid :: rest) =
      .fatalUnexpected 0 (check_status queries qid) := by
  have hf : queries.find?
      (fun q => decide (dictGet q ("id".data) = JVal.atom (.str qid))) = none := by
    apply List.find?_eq_none.mpr
    intro q hq
    simpa using h q hq
  have hcs : check_status queries qid
      = [(("status".data), JVal.atom (.str ("not_found".data)))] := by
    unfold check_status
    rw [hf]
  refine ⟨hcs, ?_⟩
  rw [hcs]
  apply runPoll_cons_of_fatalStatus
  apply pollIter_unexpected <;> decide

/-- Claim C9, witness: a listing holding one foreign job id. -/
theorem check_status_not_found_witness :
    check_status [[(("id".data), JVal.atom (.str ("a".data)))]] ("b".data)
      = [(("status".data), JVal.atom (.str ("not_found".data)))] ∧
    runPoll (check_status [[(("id".data), JVal.atom (.str ("a".data)))]] ("b".data) :: []) =
      .fatalUnexpected 0 (check_status [[(("id".data), JVal.atom (.str ("a".data)))]] ("b".data)) :=
  check_status_not_found [[(("id".data), JVal.atom (.str ("a".data)))]] ("b".data) []
    (by decide)

theorem downloadIter_fst (f : List Nat) (ev : NetEvent) :
    (downloadIter f ev).1 = requestHeader f.length := by
  cases ev <;> simp only [downloadIter] <;> (repeat' split) <;> rfl

theorem downloadIter_ok_none (file : List Nat) (r : HttpResp) (chunks : List (List Nat))
    (hst : ¬ (¬ r.status = 200 ∧ ¬ r.status = 206))
    (hE : extractTotalSize r (selectMode r.status file.length).2 = none) :
    downloadIter file (.ok r chunks) =
      (requestHeader file.length,
       .done (applyMode (selectMode r.status file.length).1 file (writtenBody chunks))) := by
  simp only [downloadIter, if_neg hst, hE]

theorem downloadIter_ok_done (file : List Nat) (r : HttpResp) (chunks : List (List Nat)) (t : Nat)
    (hst : ¬ (¬ r.status = 200 ∧ ¬ r.status = 206))
    (hE : extractTotalSize r (selectMode r.status file.length).2 = some t)
    (hle : t ≤ (applyMode (selectMode r.status file.length).1 file (writtenBody chunks)).length) :
    downloadIter file (.ok r chunks) =
      (requestHeader file.length,
       .done (applyMode (selectMode r.status file.length).1 file (writtenBody chunks))) := by
  simp only [downloadIter, if_neg hst, hE]
  rw [if_pos hle]

theorem downloadIter_ok_next (file : List Nat) (r : HttpResp) (chunks : List (List Nat)) (t : Nat)
    (hst : ¬ (¬ r.status = 200 ∧ ¬ r.status = 206))
    (hE : extractTotalSize r (selectMode r.status file.length).2 = some t)
    (hgt : ¬ t ≤ (applyMode (selectMode r.status file.length).1 file (writtenBody chunks)).length) :
    downloadIter file (.ok r chunks) =
      (requestHeader file.length,
       .nextNoSleep (applyMode (selectMode r.status file.length).1 file (writtenBody chunks))) := by
  simp only [downloadIter, if_neg hst, hE]
  rw [if_neg hgt]

theorem downloadIter_stream_eval (file : List Nat) (r : HttpResp) (chunks : List (List Nat))
    (hst : ¬ (¬ r.status = 200 ∧ ¬ r.status = 206)) :
    downloadIter file (.streamError r chunks) =
      (requestHeader file.length,
       .retrySleep (applyMode (selectMode r.status file.length).1 file (writtenBody chunks))) := by
  simp only [downloadIter, if_neg hst]

theorem downloadIter_bad_status_ok (file : List Nat) (r : HttpResp) (chunks : List (List Nat))
    (h1 : ¬ r.status = 200) (h2 : ¬ r.status = 206) :
    downloadIter file (.ok r chunks) = (requestHeader file.length, .fatalStatus r.status file) := by
  simp only [downloadIter, if_pos (And.intro h1 h2)]

theorem downloadIter_bad_status_stream (file : List Nat) (r : HttpResp) (chunks : List (List Nat))
    (h1 : ¬ r.status = 200) (h2 : ¬ r.status = 206) :
    downloadIter file (.streamError r chunks)
      = (requestHeader file.length, .fatalStatus r.status file) := by
  simp only [downloadIter, if_pos (And.intro h1 h2)]

theorem selectMode_206 (off : Nat) :
    selectMode 206 off = ((if ¬ off = 0 then .ab else .wb), off) := by
  simp [selectMode]

theorem runDownload_cons_done (ev : NetEvent) (evs : List NetEvent) (file f : List Nat)
    (hdr : Option (List Char)) (h : downloadIter file ev = (hdr, .done f)) :
    runDownload (ev :: evs) file = (⟨[hdr], 0⟩, .success f) := by
  simp only [runDownload, h]

theorem runDownload_cons_fatal (ev : NetEvent) (evs : List NetEvent) (file f : List Nat)
    (hdr : Option (List Char)) (s : Nat) (h : downloadIter file ev = (hdr, .fatalStatus s f)) :
    runDownload (ev :: evs) file = (⟨[hdr], 0⟩, .fatal s f) := by
  simp only [runDownload, h]

theorem runDownload_cons_retry (ev : NetEvent) (evs : List NetEvent) (file f : List Nat)
    (hdr : Option (List Char)) (h : downloadIter file ev = (hdr, .retrySleep f)) :
    runDownload (ev :: evs) file =
      (⟨hdr :: (runDownload evs f).1.requests, (runDownload evs f).1.sleeps + 1⟩,
        (runDownload evs f).2) := by
  simp only [runDownload, h]

/-- Claim C1: resumable fetch.  With a non-empty partial file of size N
the GET carries the header value `bytes=N-`; with no local bytes the GET
carries no `Range` header; and a 206 response whose body completes the
expected total is appended to the existing file, the loop returns at
once, and the final file size equals the total. -/
theorem fetch_resumable_resume (file : List Nat) (r : HttpResp) (chunks : List (List Nat))
    (evs : List NetEvent) (t : Nat)
    (h206 : r.status = 206)
    (hN : ¬ file = [])
    (htot : extractTotalSize r file.length = some t)
    (hfin : file.length + (writtenBody chunks).length = t) :
    (downloadIter file (.ok r chunks)).1 = some (rangeHeaderValue file.length) ∧
    (∀ ev : NetEvent, (downloadIter ([] : List Nat) ev).1 = none) ∧
    runDownload (.ok r chunks :: evs) file =
      (⟨[some (rangeHeaderValue file.length)], 0⟩, .success (file ++ writtenBody chunks)) ∧
    (file ++ writtenBody chunks).length = t := by
  have hlen0 : ¬ file.length = 0 := by
    simpa [List.length_eq_zero] using hN
  have hhdr : requestHeader file.length = some (rangeHeaderValue file.length) := by
    unfold requestHeader
    rw [if_pos hlen0]
  have hstat : ¬ (¬ r.status = 200 ∧ ¬ r.status = 206) := by
    simp [h206]
  have hsm : selectMode r.status file.length = (.ab, file.length) := by
    rw [h206, selectMode_206, if_pos hlen0]
  have happ : (file ++ writtenBody chunks).length = t := by
    simp [List.length_append, hfin]
  have hE : extractTotalSize r (selectMode r.status file.length).2 = some t := by
    rw [hsm]
    exact htot
  have hle : t ≤ (applyMode (selectMode r.status file.length).1 file (writtenBody chunks)).length := by
    rw [hsm]
    simpa [applyMode] using le_of_eq happ.symm
  have hiter : downloadIter file (.ok r chunks)
      = (some (rangeHeaderValue file.length), .done (file ++ writtenBody chunks)) := by
    have h0 := downloadIter_ok_done file r chunks t hstat hE hle
    rw [hsm] at h0
    simpa [applyMode, hhdr] using h0
  refine ⟨by rw [downloadIter_fst, hhdr], ?_, ?_, happ⟩
  · intro ev
    rw [downloadIter_fst]
    unfold requestHeader
    simp
  · exact runDownload_cons_done _ evs file _ _ hiter

/-- Claim C1, witness: a four-byte partial file resumed by a 206 response
carrying the remaining six bytes of a ten-byte artifact. -/
theorem fetch_resumable_resume_witness :
    runDownload
        [NetEvent.ok ⟨206, some ("bytes 4-9/10".data), none⟩ [[5, 6], [7, 8, 9, 10]]]
        [1, 2, 3, 4] =
      (⟨[some (rangeHeaderValue 4)], 0⟩, .success [1, 2, 3, 4, 5, 6, 7, 8, 9, 10]) := by
  have h := fetch_resumable_resume [1, 2, 3, 4] ⟨206, some ("bytes 4-9/10".data), none⟩
    [[5, 6], [7, 8, 9, 10]] [] 10 rfl (by decide) (by decide) (by decide)
  simpa using h.2.2.1

theorem selectMode_zero (s : Nat) : selectMode s 0 = (.wb, 0) := by
  simp [selectMode]

theorem selectMode_200_pos (off : Nat) (h : ¬ off = 0) : selectMode 200 off = (.wb, 0) := by
  simp [selectMode, h]

theorem applyMode_keep (s : Nat) (file w : List Nat) (h : ¬ (s = 200 ∧ ¬ file.length = 0)) :
    applyMode (selectMode s file.length).1 file w = file ++ w := by
  by_cases hl : file.length = 0
  · have hf : file = [] := List.length_eq_zero.mp hl
    subst hf
    simp [selectMode, applyMode]
  · have hs : ¬ s = 200 := fun he => h ⟨he, hl⟩
    simp [selectMode, applyMode, hs, hl]

theorem applyMode_discard (file w : List Nat) (h : ¬ file.length = 0) :
    applyMode (selectMode 200 file.length).1 file w = w := by
  simp [selectMode, applyMode, h]

theorem downloadIter_ok_fileOf (file : List Nat) (r : HttpResp) (chunks : List (List Nat))
    (hst : ¬ (¬ r.status = 200 ∧ ¬ r.status = 206)) :
    (downloadIter file (.ok r chunks)).2.fileOf
      = applyMode (selectMode r.status file.length).1 file (writtenBody chunks) := by
  simp only [downloadIter, if_neg hst]
  (repeat' split) <;> simp [IterOut.fileOf]

theorem downloadIter_stream_fileOf (file : List Nat) (r : HttpResp) (chunks : List (List Nat))
    (hst : ¬ (¬ r.status = 200 ∧ ¬ r.status = 206)) :
    (downloadIter file (.streamError r chunks)).2.fileOf
      = applyMode (selectMode r.status file.length).1 file (writtenBody chunks) := by
  simp only [downloadIter, if_neg hst]
  simp [IterOut.fileOf]

/-- Claim C2: across resume iterations the local file only grows, with
one exception.  A 200 response to a ranged request (local offset
positive) truncates: the new file is exactly the streamed body.  In every
other accepted case (206, or 200 with no local bytes) the written file is
the old content with the streamed body appended, so its size never
decreases; the write mode is truncate-and-rewrite (`wb`) in the
exceptional case, append (`ab`) for a positive offset otherwise, and
create (`wb`) for offset zero. -/
theorem transfer_size_invariant (file : List Nat) (r : HttpResp) (chunks : List (List Nat))
    (hok : r.status = 200 ∨ r.status = 206) :
    (r.status = 200 ∧ ¬ file.length = 0 → selectMode r.status file.length = (.wb, 0)) ∧
    (r.status = 206 ∧ ¬ file.length = 0 → selectMode r.status file.length = (.ab, file.length)) ∧
    (file.length = 0 → selectMode r.status file.length = (.wb, 0)) ∧
    (¬ (r.status = 200 ∧ ¬ file.length = 0) →
      (downloadIter file (.ok r chunks)).2.fileOf = file ++ writtenBody chunks ∧
      (downloadIter file (.streamError r chunks)).2.fileOf = file ++ writtenBody chunks ∧
      file.length ≤ (downloadIter file (.ok r chunks)).2.fileOf.length) ∧
    (r.status = 200 ∧ ¬ file.length = 0 →
      (downloadIter file (.ok r chunks)).2.fileOf = writtenBody chunks ∧
      (downloadIter file (.streamError r chunks)).2.fileOf = writtenBody chunks) := by
  have hst : ¬ (¬ r.status = 200 ∧ ¬ r.status = 206) := by
    rcases hok with h | h <;> simp [h]
  refine ⟨?_, ?_, ?_, ?_, ?_⟩
  · rintro ⟨h200, hl⟩
    rw [h200]
    exact selectMode_200_pos file.length hl
  · rintro ⟨h206, hl⟩
    rw [h206, selectMode_206, if_pos hl]
  · intro hl
    rw [hl]
    exact selectMode_zero r.status
  · intro hexc
    have h1 := downloadIter_ok_fileOf file r chunks hst
    have h2 := downloadIter_stream_fileOf file r chunks hst
    rw [applyMode_keep r.status file (writtenBody chunks) hexc] at h1 h2
    refine ⟨h1, h2, ?_⟩
    rw [h1]
    simp
  · rintro ⟨h200, hl⟩
    have h1 := downloadIter_ok_fileOf file r chunks hst
    have h2 := downloadIter_stream_fileOf file r chunks hst
    rw [h200] at h1 h2
    rw [applyMode_discard file (writtenBody chunks) hl] at h1 h2
    exact ⟨h1, h2⟩

/-- Claim C2, witness: a 206 continuation appends to two local bytes,
while a 200 answer to the same ranged request rewrites the file from
scratch. -/
theorem transfer_size_invariant_witness :
    (downloadIter [10, 20] (.ok ⟨206, none, none⟩ [[30]])).2.fileOf = [10, 20, 30] ∧
    (downloadIter [10, 20] (.ok ⟨200, none, none⟩ [[30]])).2.fileOf = [30] := by
  have h206 := (transfer_size_invariant [10, 20] ⟨206, none, none⟩ [[30]] (Or.inr rfl)).2.2.2.1
    (by decide)
  have h200 := (transfer_size_invariant [10, 20] ⟨200, none, none⟩ [[30]] (Or.inl rfl)).2.2.2.2
    (by decide)
  exact ⟨by simpa using h206.1, by simpa using h200.1⟩

theorem runDownload_head_request (ev : NetEvent) (evs : List NetEvent) (f : List Nat) :
    (runDownload (ev :: evs) f).1.requests.head? = some (requestHeader f.length) := by
  have hfst := downloadIter_fst f ev
  rcases h : downloadIter f ev with ⟨hdr, out⟩
  have hh : hdr = requestHeader f.length := by
    rw [h] at hfst
    exact hfst
  cases out <;> simp [runDownload, h, hh]

/-- Claim C6: the two-tier error policy of the transfer engine.  A
response status besides 200 and 206 is an immediate fatal failure — the
run ends on the spot, no later event is consumed, no sleep happens.  A
transport exception raised by the GET itself sleeps one interval and
rejoins the loop with the file unchanged; one raised mid-stream (in an
accepted non-truncating response) sleeps one interval and rejoins the
loop with the already-written chunks preserved, so only unwritten bytes
of the interrupted response are lost; and every rejoin recomputes its
offset, and hence its `Range` header, from the file as it then stands. -/
theorem transfer_error_policy :
    (∀ (file : List Nat) (r : HttpResp) (chunks : List (List Nat)) (evs : List NetEvent),
      ¬ r.status = 200 → ¬ r.status = 206 →
      runDownload (.ok r chunks :: evs) file
        = (⟨[requestHeader file.length], 0⟩, .fatal r.status file)) ∧
    (∀ (file : List Nat) (evs : List NetEvent),
      runDownload (.reqError :: evs) file
        = (⟨requestHeader file.length :: (runDownload evs file).1.requests,
            (runDownload evs file).1.sleeps + 1⟩, (runDownload evs file).2)) ∧
    (∀ (file : List Nat) (r : HttpResp) (chunks : List (List Nat)) (evs : List NetEvent),
      (r.status = 200 ∨ r.status = 206) →
      ¬ (r.status = 200 ∧ ¬ file.length = 0) →
      runDownload (.streamError r chunks :: evs) file
        = (⟨requestHeader file.length
              :: (runDownload evs (file ++ writtenBody chunks)).1.requests,
            (runDownload evs (file ++ writtenBody chunks)).1.sleeps + 1⟩,
           (runDownload evs (file ++ writtenBody chunks)).2)) ∧
    (∀ (ev : NetEvent) (evs : List NetEvent) (f : List Nat),
      (runDownload (ev :: evs) f).1.requests.head? = some (requestHeader f.length)) := by
  refine ⟨?_, ?_, ?_, runDownload_head_request⟩
  · intro file r chunks evs h1 h2
    exact runDownload_cons_fatal _ evs file file _ r.status
      (downloadIter_bad_status_ok file r chunks h1 h2)
  · intro file evs
    exact runDownload_cons_retry _ evs file file _ rfl
  · intro file r chunks evs hok hexc
    have hst : ¬ (¬ r.status = 200 ∧ ¬ r.status = 206) := by
      rcases hok with h | h <;> simp [h]
    have hiter := downloadIter_stream_eval file r chunks hst
    rw [applyMode_keep r.status file (writtenBody chunks) hexc] at hiter
    exact runDownload_cons_retry _ evs file _ _ hiter

/-- Claim C6, witness: a 404 answer is fatal at once; a dropped GET and a
mid-stream disconnect each sleep once and resume with the bytes already
on disk. -/
theorem transfer_error_policy_witness :
    runDownload [.ok ⟨404, none, none⟩ []] [1] = (⟨[requestHeader 1], 0⟩, .fatal 404 [1]) ∧
    runDownload [.reqError] [1] = (⟨[requestHeader 1], 1⟩, .pending [1]) ∧
    runDownload [.streamError ⟨206, none, none⟩ [[2]]] [1]
      = (⟨[requestHeader 1], 1⟩, .pending [1, 2]) := by
  refine ⟨transfer_error_policy.1 [1] ⟨404, none, none⟩ [] [] (by decide) (by decide), ?_, ?_⟩
  · have h := transfer_error_policy.2.1 [1] []
    simpa [runDownload] using h
  · have h := transfer_error_policy.2.2.1 [1] ⟨206, none, none⟩ [[2]] [] (Or.inr rfl)
      (by decide)
    simpa [runDownload] using h

theorem takeWhile_all_stop (p : Char → Bool) (xs ys : List Char) (y : Char)
    (hxs : ∀ x ∈ xs, p x = true) (hy : p y = false) :
    (xs ++ y :: ys).takeWhile p = xs := by
  induction xs with
  | nil => simp [List.takeWhile_cons, hy]
  | cons a as ih =>
    have hpa : p a = true := hxs a (List.mem_cons_self a as)
    simp [List.takeWhile_cons, hpa,
      ih (fun x hx => hxs x (List.mem_cons_of_mem a hx))]

theorem afterLastSlash_append (pre ds : List Char) (hds : '/' ∉ ds) :
    afterLastSlash (pre ++ '/' :: ds) = ds := by
  unfold afterLastSlash
  rw [List.reverse_append, List.reverse_cons, List.append_assoc, List.singleton_append]
  rw [takeWhile_all_stop _ ds.reverse (pre.reverse) '/'
    (fun x hx => by
      have : ¬ x = '/' := fun he => hds (he ▸ List.mem_reverse.mp hx)
      simp [this])
    (by simp)]
  exact List.reverse_reverse ds

theorem extractTotalSize_fromRange (r : HttpResp) (offset : Nat) (pre ds : List Char)
    (hcr : r.contentRange = some (pre ++ '/' :: ds)) (hne : ¬ ds = [])
    (hdig : ∀ c ∈ ds, c.isDigit) (hslash : '/' ∉ ds) :
    extractTotalSize r offset = some (parseDec ds) := by
  have hall : ds.all Char.isDigit = true := by
    rw [List.all_eq_true]
    intro c hc
    simpa using hdig c hc
  have hemp : ds.isEmpty = false := by
    cases ds with
    | nil => exact absurd rfl hne
    | cons a l => rfl
  have hany : strContains (pre ++ '/' :: ds) '/' = true := by
    unfold strContains
    rw [List.any_eq_true]
    exact ⟨'/', by simp, by simp⟩
  simp only [extractTotalSize, hcr]
  rw [afterLastSlash_append pre ds hslash]
  have hcond : (!(pre ++ '/' :: ds).isEmpty && strContains (pre ++ '/' :: ds) '/'
      && pyIsDigit ds) = true := by
    simp [pyIsDigit, hany, hall, hemp]
  rw [if_pos hcond]

theorem extractTotalSize_fromLength (r : HttpResp) (offset : Nat) (ds : List Char)
    (hcr : r.contentRange = none) (hcl : r.contentLength = some ds)
    (hne : ¬ ds = []) (hdig : ∀ c ∈ ds, c.isDigit) :
    extractTotalSize r offset =
      (if r.status = 206 then some (offset + parseDec ds) else some (parseDec ds)) := by
  have hall : ds.all Char.isDigit = true := by
    rw [List.all_eq_true]
    intro c hc
    simpa using hdig c hc
  have hemp : ds.isEmpty = false := by
    cases ds with
    | nil => exact absurd rfl hne
    | cons a l => rfl
  simp only [extractTotalSize, hcr, hcl]
  have hcond : (!ds.isEmpty && pyIsDigit ds) = true := by
    simp [pyIsDigit, hall, hemp]
  rw [if_pos hcond]

/-- Claim C7: total-size determination and the completion predicate.  A
`Content-Range` header whose segment after the last slash is a digit
string wins and yields that number, whatever `Content-Length` or the
status say; failing that, a digit `Content-Length` counts from the offset
under a 206 answer and absolutely under a 200 answer; with neither header
the total is unknown.  After a fully streamed response the iteration
finishes when the total is unknown or the on-disk size has reached it,
and loops for another partial response otherwise. -/
theorem total_size_and_completion :
    (∀ (r : HttpResp) (offset : Nat) (pre ds : List Char),
      r.contentRange = some (pre ++ '/' :: ds) → ¬ ds = [] →
      (∀ c ∈ ds, c.isDigit) → '/' ∉ ds →
      extractTotalSize r offset = some (parseDec ds)) ∧
    (∀ (r : HttpResp) (offset : Nat) (ds : List Char),
      r.contentRange = none → r.contentLength = some ds →
      ¬ ds = [] → (∀ c ∈ ds, c.isDigit) →
      (r.status = 206 → extractTotalSize r offset = some (offset + parseDec ds)) ∧
      (r.status = 200 → extractTotalSize r offset = some (parseDec ds))) ∧
    (∀ (r : HttpResp) (offset : Nat),
      r.contentRange = none → r.contentLength = none →
      extractTotalSize r offset = none) ∧
    (∀ (file : List Nat) (r : HttpResp) (chunks : List (List Nat)),
      ¬ (¬ r.status = 200 ∧ ¬ r.status = 206) →
      (extractTotalSize r (selectMode r.status file.length).2 = none →
        (downloadIter file (.ok r chunks)).2
          = .done (applyMode (selectMode r.status file.length).1 file (writtenBody chunks))) ∧
      (∀ t, extractTotalSize r (selectMode r.status file.length).2 = some t →
        t ≤ (applyMode (selectMode r.status file.length).1 file (writtenBody chunks)).length →
        (downloadIter file (.ok r chunks)).2
          = .done (applyMode (selectMode r.status file.length).1 file (writtenBody chunks))) ∧
      (∀ t, extractTotalSize r (selectMode r.status file.length).2 = some t →
        (applyMode (selectMode r.status file.length).1 file (writtenBody chunks)).length < t →
        (downloadIter file (.ok r chunks)).2
          = .nextNoSleep (applyMode (selectMode r.status file.length).1 file (writtenBody chunks)))) := by
  refine ⟨extractTotalSize_fromRange, ?_, ?_, ?_⟩
  · intro r offset ds hcr hcl hne hdig
    have h := extractTotalSize_fromLength r offset ds hcr hcl hne hdig
    constructor
    · intro h206
      rw [h, if_pos h206]
    · intro h200
      have hn206 : ¬ r.status = 206 := by
        rw [h200]
        decide
      rw [h, if_neg hn206]
  · intro r offset hcr hcl
    unfold extractTotalSize
    rw [hcr, hcl]
  · intro file r chunks hst
    refine ⟨?_, ?_, ?_⟩
    · intro hE
      rw [downloadIter_ok_none file r chunks hst hE]
    · intro t hE hle
      rw [downloadIter_ok_done file r chunks t hst hE hle]
    · intro t hE hlt
      rw [downloadIter_ok_next file r chunks t hst hE (not_le.mpr hlt)]

/-- Claim C7, witness: the `Content-Range` total is preferred over a
contradicting `Content-Length`, and a short 206 read loops for another
partial response. -/
theorem total_size_and_completion_witness :
    extractTotalSize ⟨206, some ("bytes 2-4/9".data), some ("3".data)⟩ 2
      = some (parseDec ("9".data)) ∧
    (downloadIter [1, 2] (.ok ⟨206, some ("bytes 2-4/9".data), some ("3".data)⟩ [[3, 4, 5]])).2
      = .nextNoSleep [1, 2, 3, 4, 5] := by
  constructor
  · exact total_size_and_completion.1 ⟨206, some ("bytes 2-4/9".data), some ("3".data)⟩ 2
      ("bytes 2-4".data) ("9".data) (by decide) (by decide) (by decide) (by decide)
  · have h := (total_size_and_completion.2.2.2 [1, 2]
      ⟨206, some ("bytes 2-4/9".data), some ("3".data)⟩ [[3, 4, 5]] (by decide)).2.2
      9 (by decide) (by decide)
    simpa using h

theorem strLtB_irrefl (a : List Char) : strLtB a a = false := by
  induction a with
  | nil => rfl
  | cons x xs ih => simp [strLtB, ih]

theorem strLtB_trans (a : List Char) : ∀ (b c : List Char),
    strLtB a b = true → strLtB b c = true → strLtB a c = true := by
  induction a with
  | nil =>
    intro b c hab hbc
    cases b with
    | nil => simp [strLtB] at hab
    | cons y ys =>
      cases c with
      | nil => simp [strLtB] at hbc
      | cons z zs => rfl
  | cons x xs ih =>
    intro b c hab hbc
    cases b with
    | nil => simp [strLtB] at hab
    | cons y ys =>
      cases c with
      | nil => simp [strLtB] at hbc
      | cons z zs =>
        simp only [strLtB] at hab hbc ⊢
        by_cases hxy : x.toNat < y.toNat
        · by_cases hyz : y.toNat < z.toNat
          · simp [Nat.lt_trans hxy hyz]
          · by_cases hzy : z.toNat < y.toNat
            · simp [hyz, hzy] at hbc
            · have hxz : x.toNat < z.toNat := by omega
              simp [hxz]
        · by_cases hyx : y.toNat < x.toNat
          · simp [hxy, hyx] at hab
          · simp only [if_neg hxy, if_neg hyx] at hab
            by_cases hyz : y.toNat < z.toNat
            · have hxz : x.toNat < z.toNat := by omega
              simp [hxz]
            · by_cases hzy : z.toNat < y.toNat
              · simp [hyz, hzy] at hbc
              · simp only [if_neg hyz, if_neg hzy] at hbc
                have hxz : ¬ x.toNat < z.toNat := by omega
                have hzx : ¬ z.toNat < x.toNat := by omega
                simp only [if_neg hxz, if_neg hzx]
                exact ih ys zs hab hbc

theorem insertDescBy_ne_nil (key : Dict → List Char) (x : Dict) (l : List Dict) :
    insertDescBy key x l ≠ [] := by
  cases l with
  | nil => simp [insertDescBy]
  | cons y ys =>
    simp only [insertDescBy]
    split <;> simp

theorem mem_insertDescBy (key : Dict → List Char) (x a : Dict) (l : List Dict) :
    a ∈ insertDescBy key x l ↔ a = x ∨ a ∈ l := by
  induction l with
  | nil => simp [insertDescBy]
  | cons y ys ih =>
    simp only [insertDescBy]
    split
    · simp
    · simp only [List.mem_cons, ih]
      tauto

theorem insertDescBy_head_max (key : Dict → List Char) (x : Dict) (l : List Dict)
    (hl : ∀ a ∈ l, strLtB (key (l.headD [])) (key a) = false) :
    ∀ a ∈ insertDescBy key x l,
      strLtB (key ((insertDescBy key x l).headD [])) (key a) = false := by
  cases l with
  | nil =>
    intro a ha
    simp only [insertDescBy, List.mem_singleton] at ha
    subst ha
    simp [insertDescBy, strLtB_irrefl]
  | cons y ys =>
    intro a ha
    simp only [insertDescBy] at ha ⊢
    by_cases hcmp : strLtB (key y) (key x) = true
    · rw [if_pos hcmp] at ha ⊢
      simp only [List.headD_cons]
      rcases List.mem_cons.mp ha with h | h
      · subst h
        exact strLtB_irrefl (key a)
      · by_contra hcon
        have hxa : strLtB (key x) (key a) = true := by
          revert hcon
          cases strLtB (key x) (key a) <;> simp
        have hya : strLtB (key y) (key a) = true := strLtB_trans _ _ _ hcmp hxa
        have := hl a (by simpa using h)
        simp only [List.headD_cons] at this
        rw [this] at hya
        exact Bool.false_ne_true hya
    · rw [if_neg hcmp] at ha ⊢
      simp only [List.headD_cons]
      rcases List.mem_cons.mp ha with h | h
      · subst h
        exact strLtB_irrefl (key a)
      · rcases (mem_insertDescBy key x a ys).mp h with h2 | h2
        · subst h2
          revert hcmp
          cases strLtB (key y) (key a) <;> simp
        · have := hl a (List.mem_cons_of_mem y h2)
          simpa using this

theorem mem_sortDescBy (key : Dict → List Char) (a : Dict) (l : List Dict) :
    a ∈ sortDescBy key l ↔ a ∈ l := by
  induction l with
  | nil => simp [sortDescBy]
  | cons x xs ih =>
    simp only [sortDescBy, mem_insertDescBy, ih, List.mem_cons]

theorem sortDescBy_ne_nil (key : Dict → List Char) (l : List Dict) (h : ¬ l = []) :
    sortDescBy key l ≠ [] := by
  cases l with
  | nil => exact absurd rfl h
  | cons x xs => exact insertDescBy_ne_nil key x (sortDescBy key xs)

theorem sortDescBy_head_max (key : Dict → List Char) (l : List Dict) :
    ∀ a ∈ sortDescBy key l,
      strLtB (key ((sortDescBy key l).headD [])) (key a) = false := by
  induction l with
  | nil => simp [sortDescBy]
  | cons x xs ih =>
    simp only [sortDescBy]
    exact insertDescBy_head_max key x (sortDescBy key xs) ih

theorem chooseMatched_spec (matched : List Dict) (hne : ¬ matched = []) :
    chooseMatched matched ∈ matched ∧
    ((∃ q ∈ matched, dictGet q ("status".data) = JVal.atom (.str ("done".data))) →
      dictGet (chooseMatched matched) ("status".data) = JVal.atom (.str ("done".data))) ∧
    ((¬ ∃ q ∈ matched, dictGet q ("status".data) = JVal.atom (.str ("done".data))) →
      ∀ q ∈ matched, strLtB (createdKey (chooseMatched matched)) (createdKey q) = false) := by
  unfold chooseMatched
  rcases hdone : matched.filter
      (fun q => decide (dictGet q ("status".data) = JVal.atom (.str ("done".data)))) with
    _ | ⟨q0, rest⟩
  · have hnod : ∀ q ∈ matched,
        ¬ dictGet q ("status".data) = JVal.atom (.str ("done".data)) := by
      intro q hq
      have := List.filter_eq_nil_iff.mp hdone q hq
      simpa using this
    have hsne : sortDescBy createdKey matched ≠ [] := sortDescBy_ne_nil createdKey matched hne
    have hmem : (sortDescBy createdKey matched).headD [] ∈ sortDescBy createdKey matched := by
      cases hs : sortDescBy createdKey matched with
      | nil => exact absurd hs hsne
      | cons a as => exact List.mem_cons_self a as
    refine ⟨(mem_sortDescBy createdKey _ matched).mp hmem, ?_, ?_⟩
    · intro hex
      rcases hex with ⟨q, hq, hst⟩
      exact absurd hst (hnod q hq)
    · intro _
      intro q hq
      exact sortDescBy_head_max createdKey matched q ((mem_sortDescBy createdKey q matched).mpr hq)
  · have hq0 : q0 ∈ matched.filter
        (fun q => decide (dictGet q ("status".data) = JVal.atom (.str ("done".data)))) := by
      rw [hdone]
      exact List.mem_cons_self q0 rest
    have hq0m := List.mem_filter.mp hq0
    refine ⟨hq0m.1, fun _ => by simpa using hq0m.2, ?_⟩
    intro hnex
    exact absurd ⟨q0, hq0m.1, by simpa using hq0m.2⟩ hnex

theorem payload_match_proj (q : Dict) (m : List Char) (pa1 pa2 : Dict)
    (hb : dictGet pa1 ("begin".data) = dictGet pa2 ("begin".data))
    (he : dictGet pa1 ("end".data) = dictGet pa2 ("end".data))
    (hc : dictGet pa1 ("coordinates".data) = dictGet pa2 ("coordinates".data))
    (ho : dictGet pa1 ("options".data) = dictGet pa2 ("options".data)) :
    payload_match q m pa1 = payload_match q m pa2 := by
  unfold payload_match
  rw [hb, he, hc, ho]

theorem create_or_reuse_matched (queries : List Dict)
    (b e m : List Char) (a : Dict) (email : List Char)
    (hne : ¬ queries.filter
      (fun q => payload_match q m (buildPayloadArgs email b e a)) = []) :
    create_or_reuse_query_id queries b e m a email =
      .reused (pyStr (dictGet
        (chooseMatched (queries.filter
          (fun q => payload_match q m (buildPayloadArgs email b e a))))
        ("id".data))) := by
  unfold create_or_reuse_query_id
  rw [if_neg hne]

/-- Claim C5: reuse is idempotent and bounded.  Whenever the listing
holds a match for the request, two requests with the same time range and
the same compared parameters (`coordinates` and `options` of the built
payloads; other parameters such as `flags` are free to differ) resolve to
the same outcome — a reused job id with no creation POST — and the job
chosen is one with status `done` when any match is done, else a match
whose `created` string no other match exceeds in the lexicographic
order. -/
theorem create_or_reuse_idempotent_and_choice
    (queries : List Dict) (b e m email : List Char) (a1 a2 : Dict)
    (hb : dictGet (buildPayloadArgs email b e a1) ("begin".data)
        = dictGet (buildPayloadArgs email b e a2) ("begin".data))
    (hend : dictGet (buildPayloadArgs email b e a1) ("end".data)
        = dictGet (buildPayloadArgs email b e a2) ("end".data))
    (hc : dictGet (buildPayloadArgs email b e a1) ("coordinates".data)
        = dictGet (buildPayloadArgs email b e a2) ("coordinates".data))
    (ho : dictGet (buildPayloadArgs email b e a1) ("options".data)
        = dictGet (buildPayloadArgs email b e a2) ("options".data))
    (hmatch : ∃ q ∈ queries, payload_match q m (buildPayloadArgs email b e a1) = true) :
    create_or_reuse_query_id queries b e m a1 email
      = create_or_reuse_query_id queries b e m a2 email ∧
    ∃ chosen ∈ queries.filter (fun q => payload_match q m (buildPayloadArgs email b e a1)),
      create_or_reuse_query_id queries b e m a1 email
        = .reused (pyStr (dictGet chosen ("id".data))) ∧
      ((∃ q ∈ queries.filter (fun q => payload_match q m (buildPayloadArgs email b e a1)),
          dictGet q ("status".data) = JVal.atom (.str ("done".data))) →
        dictGet chosen ("status".data) = JVal.atom (.str ("done".data))) ∧
      ((¬ ∃ q ∈ queries.filter (fun q => payload_match q m (buildPayloadArgs email b e a1)),
          dictGet q ("status".data) = JVal.atom (.str ("done".data))) →
        ∀ q ∈ queries.filter (fun q => payload_match q m (buildPayloadArgs email b e a1)),
          strLtB (createdKey chosen) (createdKey q) = false) := by
  have hf : queries.filter (fun q => payload_match q m (buildPayloadArgs email b e a2))
      = queries.filter (fun q => payload_match q m (buildPayloadArgs email b e a1)) :=
    List.filter_congr (fun q _ =>
      payload_match_proj q m (buildPayloadArgs email b e a2) (buildPayloadArgs email b e a1)
        hb.symm hend.symm hc.symm ho.symm)
  have hne : ¬ queries.filter
      (fun q => payload_match q m (buildPayloadArgs email b e a1)) = [] := by
    rcases hmatch with ⟨q, hq, hpm⟩
    intro hnil
    have hqf : q ∈ queries.filter
        (fun q => payload_match q m (buildPayloadArgs email b e a1)) :=
      List.mem_filter.mpr ⟨hq, hpm⟩
    rw [hnil] at hqf
    exact List.not_mem_nil q hqf
  have hne2 : ¬ queries.filter
      (fun q => payload_match q m (buildPayloadArgs email b e a2)) = [] := by
    rw [hf]
    exact hne
  have h1 := create_or_reuse_matched queries b e m a1 email hne
  have h2 := create_or_reuse_matched queries b e m a2 email hne2
  have hspec := chooseMatched_spec
    (queries.filter (fun q => payload_match q m (buildPayloadArgs email b e a1))) hne
  constructor
  · rw [h1, h2, hf]
  · exact ⟨chooseMatched (queries.filter
      (fun q => payload_match q m (buildPayloadArgs email b e a1))),
      hspec.1, h1, hspec.2.1, hspec.2.2⟩

/-- Claim C5, witness: the scenario of the spec — a `create_map` request
for 2025-11-12 to 2025-11-13 with `options.product_type = "roti"`, once
with movie/plot flags and once without, resolved against a listing that
echoes the job with extra defaulted fields: both calls reuse the same
listed job and no creation POST is issued. -/
theorem create_or_reuse_idempotent_witness :
    create_or_reuse_query_id
      [ [ (("id".data), JVal.atom (.str ("7".data)))
        , (("type".data), JVal.atom (.str ("map".data)))
        , (("begin".data), JVal.atom (.str ("2025-11-12T00:00:00".data)))
        , (("end".data), JVal.atom (.str ("2025-11-13T00:00:00".data)))
        , (("status".data), JVal.atom (.str ("done".data)))
        , (("options".data), JVal.dict
            [ (("product_type".data), JAtom.str ("roti".data))
            , (("format".data), JAtom.str ("hdf5".data)) ]) ] ]
      ("2025-11-12 00:00".data) ("2025-11-13 00:00".data) ("create_map".data)
      [ (("options".data), JVal.dict [(("product_type".data), JAtom.str ("roti".data))])
      , (("flags".data), JVal.dict [(("create_plots".data), JAtom.bool false)]) ]
      ("e@x".data)
    = create_or_reuse_query_id
      [ [ (("id".data), JVal.atom (.str ("7".data)))
        , (("type".data), JVal.atom (.str ("map".data)))
        , (("begin".data), JVal.atom (.str ("2025-11-12T00:00:00".data)))
        , (("end".data), JVal.atom (.str ("2025-11-13T00:00:00".data)))
        , (("status".data), JVal.atom (.str ("done".data)))
        , (("options".data), JVal.dict
            [ (("product_type".data), JAtom.str ("roti".data))
            , (("format".data), JAtom.str ("hdf5".data)) ]) ] ]
      ("2025-11-12 00:00".data) ("2025-11-13 00:00".data) ("create_map".data)
      [ (("options".data), JVal.dict [(("product_type".data), JAtom.str ("roti".data))]) ]
      ("e@x".data) :=
  (create_or_reuse_idempotent_and_choice _ _ _ _ _ _ _
    (by decide) (by decide) (by decide) (by decide) (by decide)).1

/-- The keys the client sends under a `coordinates` / `options` value: the
entries of the mapping, nothing for an absent field. -/
def sentKeys : JVal → List (List Char × JAtom)
  | .dict pc => pc
  | _ => []

/-- The value the server echoes for a key of a `coordinates` / `options`
field: the stored atom of the echoed mapping, `null` when the key or the
mapping is absent. -/
def echoedValue : JVal → List Char → JAtom
  | .dict sc, k => aGet sc k
  | _, _ => .null

/-- The type condition as the claim states it: the server type label
(the `type` field as text, empty when absent) equals the request method
case-insensitively, or the label is `map` while the method is
`create_map`. -/
def typeMatchesClaim (tv : JVal) (m : List Char) : Prop :=
  pyLower (pyStr (pyOr tv (JVal.atom (.str [])))) = pyLower m ∨
  (pyLower (pyStr (pyOr tv (JVal.atom (.str [])))) = "map".data
    ∧ pyLower m = "create_map".data)

/-- The normalization exactly as the claim words it: replace the `T`
separator with a space and truncate to 16 characters (no whitespace
stripping). -/
def normClaimLiteral (s : List Char) : List Char :=
  (pyReplaceChar 'T' ' ' s).take 16

/-- The normalization of the amended claim: strip surrounding whitespace,
replace the `T` separator with a space, truncate to 16 characters. -/
def normAmended (s : List Char) : List Char :=
  (pyReplaceChar 'T' ' ' (pyStrip s)).take 16

/-- The deduplication predicate exactly as claim C4 words it: type label
match, `begin` and `end` equal after the literal replace-and-truncate
normalization, and every sent `coordinates` / `options` key echoed with
an equal value (server-only keys ignored). -/
def payloadMatchClaim (sq : Dict) (m : List Char) (pa : Dict) : Prop :=
  typeMatchesClaim (dictGet sq ("type".data)) m ∧
  Option.map normClaimLiteral (jvalToOptStr (dictGet sq ("begin".data)))
    = Option.map normClaimLiteral (jvalToOptStr (dictGet pa ("begin".data))) ∧
  Option.map normClaimLiteral (jvalToOptStr (dictGet sq ("end".data)))
    = Option.map normClaimLiteral (jvalToOptStr (dictGet pa ("end".data))) ∧
  (∀ kv ∈ sentKeys (dictGet pa ("coordinates".data)),
    echoedValue (dictGet sq ("coordinates".data)) kv.1 = kv.2) ∧
  (∀ kv ∈ sentKeys (dictGet pa ("options".data)),
    echoedValue (dictGet sq ("options".data)) kv.1 = kv.2)

/-- The deduplication predicate of the amended claim: as
`payloadMatchClaim`, with stripping added to the normalization. -/
def payloadMatchAmended (sq : Dict) (m : List Char) (pa : Dict) : Prop :=
  typeMatchesClaim (dictGet sq ("type".data)) m ∧
  Option.map normAmended (jvalToOptStr (dictGet sq ("begin".data)))
    = Option.map normAmended (jvalToOptStr (dictGet pa ("begin".data))) ∧
  Option.map normAmended (jvalToOptStr (dictGet sq ("end".data)))
    = Option.map normAmended (jvalToOptStr (dictGet pa ("end".data))) ∧
  (∀ kv ∈ sentKeys (dictGet pa ("coordinates".data)),
    echoedValue (dictGet sq ("coordinates".data)) kv.1 = kv.2) ∧
  (∀ kv ∈ sentKeys (dictGet pa ("options".data)),
    echoedValue (dictGet sq ("options".data)) kv.1 = kv.2)

instance payloadMatchClaimDec (sq : Dict) (m : List Char) (pa : Dict) :
    Decidable (payloadMatchClaim sq m pa) := by
  unfold payloadMatchClaim typeMatchesClaim
  infer_instance

instance payloadMatchAmendedDec (sq : Dict) (m : List Char) (pa : Dict) :
    Decidable (payloadMatchAmended sq m pa) := by
  unfold payloadMatchAmended typeMatchesClaim
  infer_instance

theorem payload_match_true_iff (sq : Dict) (m : List Char) (pa : Dict) :
    payload_match sq m pa = true ↔
      ((pyLower (pyStr (pyOr (dictGet sq ("type".data)) (JVal.atom (.str [])))) = "map".data
          ∧ pyLower m = "create_map".data)
        ∨ pyLower (pyStr (pyOr (dictGet sq ("type".data)) (JVal.atom (.str []))))
            = pyLower m) ∧
      norm_dt (jvalToOptStr (dictGet sq ("begin".data)))
        = norm_dt (jvalToOptStr (dictGet pa ("begin".data))) ∧
      norm_dt (jvalToOptStr (dictGet sq ("end".data)))
        = norm_dt (jvalToOptStr (dictGet pa ("end".data))) ∧
      subsetCheck (dictGet pa ("coordinates".data)) (dictGet sq ("coordinates".data)) = true ∧
      subsetCheck (dictGet pa ("options".data)) (dictGet sq ("options".data)) = true := by
  unfold payload_match
  split_ifs <;> simp_all

theorem subsetCheck_iff (pv sv : JVal)
    (hp : pv = JVal.atom .null ∨ ∃ pc, pv = JVal.dict pc)
    (hs : ∀ pc, pv = JVal.dict pc → ∃ sc, sv = JVal.dict sc) :
    subsetCheck pv sv = true ↔ ∀ kv ∈ sentKeys pv, echoedValue sv kv.1 = kv.2 := by
  rcases hp with h | ⟨pc, h⟩
  · subst h
    constructor
    · intro _ kv hkv
      simp [sentKeys] at hkv
    · intro _
      rfl
  · subst h
    rcases hs pc rfl with ⟨sc, hsc⟩
    subst hsc
    show pc.all (fun kv => decide (aGet sc kv.1 = kv.2)) = true ↔ _
    rw [List.all_eq_true]
    constructor
    · intro h kv hkv
      exact of_decide_eq_true (h kv hkv)
    · intro h kv hkv
      exact decide_eq_true (h kv hkv)

theorem normCode_eq_normAmended (s : List Char) : normCode s = normAmended s := by
  unfold normCode normAmended
  by_cases h : 16 ≤ (pyReplaceChar 'T' ' ' (pyStrip s)).length
  · rw [if_pos h]
  · rw [if_neg h, List.take_of_length_le (by omega)]

theorem norm_dt_eq_map_amended (o : Option (List Char)) :
    norm_dt o = Option.map normAmended o := by
  cases o with
  | none => rfl
  | some s => simp [norm_dt, normCode_eq_normAmended]

/-- Claim C4, counterexample: the claim describes the timestamp
normalization as replace-`T`-then-truncate only, but the code also strips
surrounding whitespace.  A server `begin` with a leading space matches in
the code (the space is stripped before truncation) while the claim
predicate, truncating the un-stripped string, rejects it. -/
theorem payload_match_claim_counterexample :
    payload_match
      [ (("type".data), JVal.atom (.str ("map".data)))
      , (("begin".data), JVal.atom (.str (" 2024-01-01T00:00".data)))
      , (("end".data), JVal.atom (.str ("2024-01-02 00:00".data))) ]
      ("create_map".data)
      [ (("begin".data), JVal.atom (.str ("2024-01-01 00:00".data)))
      , (("end".data), JVal.atom (.str ("2024-01-02 00:00".data))) ] = true
    ∧ ¬ payloadMatchClaim
      [ (("type".data), JVal.atom (.str ("map".data)))
      , (("begin".data), JVal.atom (.str (" 2024-01-01T00:00".data)))
      , (("end".data), JVal.atom (.str ("2024-01-02 00:00".data))) ]
      ("create_map".data)
      [ (("begin".data), JVal.atom (.str ("2024-01-01 00:00".data)))
      , (("end".data), JVal.atom (.str ("2024-01-02 00:00".data))) ] := by
  constructor
  · decide
  · intro h
    rcases h with ⟨_, hb, _⟩
    revert hb
    decide

/-- Claim C4 (amended): for payloads and records whose `coordinates` and
`options` fields are mappings where sent, `_payload_match` holds exactly
when the type label matches (case-insensitively, or via the
`map` / `create_map` alias), both timestamps agree after
strip-replace-truncate normalization, and every sent `coordinates` and
`options` key is echoed with an equal value, keys present only on the
server side being ignored. -/
theorem payload_match_amended_iff (sq pa : Dict) (m : List Char)
    (hpc : dictGet pa ("coordinates".data) = JVal.atom .null
      ∨ ∃ pc, dictGet pa ("coordinates".data) = JVal.dict pc)
    (hpo : dictGet pa ("options".data) = JVal.atom .null
      ∨ ∃ po, dictGet pa ("options".data) = JVal.dict po)
    (hsc : ∀ pc, dictGet pa ("coordinates".data) = JVal.dict pc →
      ∃ sc, dictGet sq ("coordinates".data) = JVal.dict sc)
    (hso : ∀ po, dictGet pa ("options".data) = JVal.dict po →
      ∃ so, dictGet sq ("options".data) = JVal.dict so) :
    payload_match sq m pa = true ↔ payloadMatchAmended sq m pa := by
  rw [payload_match_true_iff, subsetCheck_iff _ _ hpc hsc, subsetCheck_iff _ _ hpo hso]
  unfold payloadMatchAmended typeMatchesClaim
  simp only [norm_dt_eq_map_amended]
  tauto

/-- Claim C4, witness: the amended equivalence applied to a concrete
matching record — extra echoed option keys and a differing timestamp
format do not break the match. -/
theorem payload_match_amended_witness :
    payload_match
      [ (("type".data), JVal.atom (.str ("MAP".data)))
      , (("begin".data), JVal.atom (.str ("2024-01-01T00:00:00".data)))
      , (("end".data), JVal.atom (.str ("2024-01-02 00:00:30".data)))
      , (("options".data), JVal.dict
          [ (("product_type".data), JAtom.str ("roti".data))
          , (("format".data), JAtom.str ("hdf5".data)) ]) ]
      ("create_map".data)
      [ (("begin".data), JVal.atom (.str ("2024-01-01 00:00".data)))
      , (("end".data), JVal.atom (.str ("2024-01-02 00:00".data)))
      , (("options".data), JVal.dict
          [ (("product_type".data), JAtom.str ("roti".data)) ]) ] = true := by
  refine (payload_match_amended_iff _ _ _
    (Or.inl (by decide))
    (Or.inr ⟨[(("product_type".data), JAtom.str ("roti".data))], by decide⟩)
    ?_ ?_).mpr (by decide)
  · intro pc hpc
    rw [show dictGet
        [ (("begin".data), JVal.atom (.str ("2024-01-01 00:00".data)))
        , (("end".data), JVal.atom (.str ("2024-01-02 00:00".data)))
        , (("options".data), JVal.dict
            [ (("product_type".data), JAtom.str ("roti".data)) ]) ]
        ("coordinates".data) = JVal.atom .null from by decide] at hpc
    exact JVal.noConfusion hpc
  · intro po hpo
    exact ⟨[ (("product_type".data), JAtom.str ("roti".data))
           , (("format".data), JAtom.str ("hdf5".data)) ], by decide⟩
